import Mathlib

/-!
Verification of the Proof-of-origin repository's core: the State Tracker
(`state_tracker.py`) and the recursive Pattern Analyzer (`pattern_analyzer.py`).

The Python code is shallowly embedded: the persisted JSON state document
becomes the structure `StateDoc`, each mutating method of `StateTracker`
becomes a pure function from a document to a pair of a `Bool` (whether the
method reached its final `save_state()` call, i.e. whether it attempted to
persist) and the updated in-memory document.  Timestamps produced by
`datetime.utcnow()` are passed in as an explicit `now : String` argument.
The file system is modelled by the explicit state `DiskFile`; `load_state`
and `save_state` thread it.  Python `dict`s (insertion-ordered, unique keys)
become association lists with first-match lookup and in-place update.
-/

set_option autoImplicit false

universe u

variable {α : Type u}

/-- One entry of `state_data["stateHistory"]` as built by `add_state_event`. -/
structure HistoryEntry where
  timestamp : String
  state : String
  event : String
  ethicalCompliance : Bool
  notes : String
deriving DecidableEq, Repr

/-- The `state_data["currentState"]` object of `_create_initial_state`. -/
structure CurrentState where
  state : String
  genaMode : Bool
  activeCommitments : Int
  lastEvaluation : String
  ethicalStatus : String
  evolutionaryStage : String
deriving DecidableEq, Repr

/-- One entry of `state_data["patterns"]["emergent"]` as built by `detect_pattern`.
Python floats carry no arithmetic here (the confidence is only stored), so they
are embedded as rationals. -/
structure EmergentPattern where
  timestamp : String
  type : String
  description : String
  confidence : Rat
  recursiveDepth : Int
deriving DecidableEq, Repr

/-- The `state_data["patterns"]["recursive"]` object. -/
structure RecursiveInfo where
  depth : Int
  maxDepth : Int
  detectedPatterns : List String
deriving DecidableEq, Repr

/-- The `state_data["patterns"]` object. -/
structure StatePatterns where
  emergent : List EmergentPattern
  recursive : RecursiveInfo
deriving DecidableEq, Repr

/-- The whole persisted state document.  `dimensions` is a Python dict of
dicts; the values stored in a dimension are arbitrary JSON, embedded as the
type parameter `α`. -/
structure StateDoc (α : Type u) where
  version : String
  stateHistory : List HistoryEntry
  currentState : CurrentState
  patterns : StatePatterns
  dimensions : List (String × List (String × α))
deriving DecidableEq, Repr

/-- Python dict lookup (`k in d` / `d[k]`): first matching key. -/
def dict_get (l : List (String × α)) (k : String) : Option α :=
  match l with
  | [] => none
  | p :: ps => if p.1 = k then some p.2 else dict_get ps k

/-- Python dict assignment `d[k] = v`: replace in place if the key is
present, else append at the end (insertion order). -/
def dict_set (l : List (String × α)) (k : String) (v : α) : List (String × α) :=
  match l with
  | [] => [(k, v)]
  | p :: ps => if p.1 = k then (k, v) :: ps else p :: dict_set ps k v

/-- In-place modification of the value stored at key `k`, used for
`state_data["dimensions"][dimension][key] = value` where `dimension` is known
to be present. -/
def dict_modify (l : List (String × α)) (k : String) (f : α → α) : List (String × α) :=
  match l with
  | [] => []
  | p :: ps => if p.1 = k then (p.1, f p.2) :: ps else p :: dict_modify ps k f

/-- Embedding of `StateTracker._create_initial_state`, with the `datetime.utcnow()`
timestamp passed in as `now`. -/
def create_initial_state (now : String) : StateDoc α :=
  { version := "1.0.0"
    stateHistory := []
    currentState :=
      { state := "initialized"
        genaMode := true
        activeCommitments := 5
        lastEvaluation := now
        ethicalStatus := "compliant"
        evolutionaryStage := "genesis" }
    patterns :=
      { emergent := []
        recursive := { depth := 0, maxDepth := 5, detectedPatterns := [] } }
    dimensions :=
      [("temporal", []), ("spatial", []), ("conceptual", []),
       ("relational", []), ("ethical", [])] }

/-- The on-disk condition of the state file: absent, present but unparseable
(any exception other than `FileNotFoundError`), or a readable document. -/
inductive DiskFile (α : Type u) where
  | missing
  | malformed
  | valid (doc : StateDoc α)
deriving DecidableEq

/-- Embedding of `StateTracker.load_state`: success flag, the resulting in-memory
`state_data` (`none` when the load failed and `state_data` stays unset), and
the disk afterwards (reading never writes). -/
def load_state (disk : DiskFile α) (now : String) :
    Bool × Option (StateDoc α) × DiskFile α :=
  match disk with
  | DiskFile.valid doc => (true, some doc, DiskFile.valid doc)
  | DiskFile.missing => (true, some (create_initial_state now), DiskFile.missing)
  | DiskFile.malformed => (false, none, DiskFile.malformed)

/-- Embedding of `StateTracker.save_state`: overwrite the file with the full document;
`ioOk` is whether the write raises. -/
def save_state (doc : StateDoc α) (disk : DiskFile α) (ioOk : Bool) :
    Bool × DiskFile α :=
  if ioOk then (true, DiskFile.valid doc) else (false, disk)

/-- Embedding of `StateTracker.add_state_event`: append one history entry stamped with the
current state, update `lastEvaluation`, then save.  The returned `Bool`
records that the final `save_state()` call was reached. -/
def add_state_event (doc : StateDoc α) (event : String) (notes : String)
    (ethical_compliant : Bool) (now : String) : Bool × StateDoc α :=
  let event_entry : HistoryEntry :=
    { timestamp := now
      state := doc.currentState.state
      event := event
      ethicalCompliance := ethical_compliant
      notes := notes }
  (true,
   { doc with
     stateHistory := doc.stateHistory ++ [event_entry]
     currentState := { doc.currentState with lastEvaluation := now } })

/-- Embedding of `StateTracker.update_state`: set the new state, then record one event
whose message embeds the old and new state and, when nonempty, the reason. -/
def update_state (doc : StateDoc α) (new_state : String) (reason : String)
    (now : String) : Bool × StateDoc α :=
  let old_state := doc.currentState.state
  let doc1 := { doc with currentState := { doc.currentState with state := new_state } }
  let event := "State transition: " ++ old_state ++ " → " ++ new_state
  let event := if reason = "" then event else event ++ " (" ++ reason ++ ")"
  add_state_event doc1 event "" true now

/-- Embedding of `StateTracker.detect_pattern`: append one emergent-pattern entry stamped
with the current `patterns.recursive.depth`, then save. -/
def detect_pattern (doc : StateDoc α) (pattern_type : String)
    (description : String) (confidence : Rat) (now : String) :
    Bool × StateDoc α :=
  let pattern_entry : EmergentPattern :=
    { timestamp := now
      type := pattern_type
      description := description
      confidence := confidence
      recursiveDepth := doc.patterns.recursive.depth }
  (true,
   { doc with
     patterns := { doc.patterns with
                   emergent := doc.patterns.emergent ++ [pattern_entry] } })

/-- Embedding of `StateTracker.increase_recursive_depth`: increment the depth and save when
strictly below `maxDepth`, otherwise return `False` without touching the
document. -/
def increase_recursive_depth (doc : StateDoc α) : Bool × StateDoc α :=
  let current_depth := doc.patterns.recursive.depth
  let max_depth := doc.patterns.recursive.maxDepth
  if current_depth < max_depth then
    (true,
     { doc with
       patterns := { doc.patterns with
                     recursive := { doc.patterns.recursive with
                                    depth := current_depth + 1 } } })
  else
    (false, doc)

/-- Embedding of `StateTracker.update_dimension`: reject unknown dimension names without
mutating; otherwise upsert the key in that dimension's dict and save. -/
def update_dimension (doc : StateDoc α) (dimension : String) (key : String)
    (value : α) : Bool × StateDoc α :=
  match dict_get doc.dimensions dimension with
  | none => (false, doc)
  | some _ =>
    (true,
     { doc with
       dimensions := dict_modify doc.dimensions dimension
                       (fun m => dict_set m key value) })

/-- The five dimension names predeclared by `_create_initial_state`. -/
def dimension_names : List String :=
  ["temporal", "spatial", "conceptual", "relational", "ethical"]

/-- C1 (amended): a single `update_state` call appends exactly one entry to
`stateHistory`, keeping the old entries as a prefix, and `currentState.state`
afterwards is `new_state`; the appended entry's `state` field equals
`new_state`, because the code overwrites `currentState.state` before
`add_state_event` stamps the entry with it. -/
theorem update_state_appends_one
    (doc : StateDoc α) (new_state : String) (reason : String) (now : String) :
    ((update_state doc new_state reason now).2.stateHistory.length
        = doc.stateHistory.length + 1) ∧
    ((update_state doc new_state reason now).2.stateHistory.take
        doc.stateHistory.length = doc.stateHistory) ∧
    (((update_state doc new_state reason now).2.stateHistory.getLast?).map
        HistoryEntry.state = some new_state) ∧
    ((update_state doc new_state reason now).2.currentState.state = new_state) := by
  refine ⟨?_, ?_, ?_, ?_⟩ <;>
    simp [update_state, add_state_event, List.take_left, List.getLast?_concat]

/-- C1 counterexample: starting from the default document (state
`"initialized"`), `update_state "running"` appends an entry whose `state`
field is `"running"`, not the previous state `"initialized"`. -/
theorem update_state_records_new_state :
    (create_initial_state ("t") : StateDoc Int).currentState.state
        = "initialized" ∧
    (((update_state (create_initial_state ("t") : StateDoc Int)
        ("running") ("") ("t2")).2.stateHistory.getLast?).map
        HistoryEntry.state = some ("running")) ∧
    ("running" : String) ≠ "initialized" := by
  refine ⟨rfl, ?_, by decide⟩
  simp [update_state, add_state_event, List.getLast?_concat]

/-- C9: transitioning to the state the document is already in is not a no-op:
exactly one history entry is appended, its event message embeds the identical
old and new state names, and the method still reaches its `save_state()`
call.  There is no same-state deduplication check. -/
theorem update_state_same_state_not_noop
    (doc : StateDoc α) (reason : String) (now : String) :
    (update_state doc doc.currentState.state reason now).2.stateHistory
        = doc.stateHistory ++
          [{ timestamp := now
             state := doc.currentState.state
             event :=
               (if reason = "" then
                  "State transition: " ++ doc.currentState.state ++ " → " ++
                    doc.currentState.state
                else
                  "State transition: " ++ doc.currentState.state ++ " → " ++
                    doc.currentState.state ++ " (" ++ reason ++ ")")
             ethicalCompliance := true
             notes := "" }] ∧
    (update_state doc doc.currentState.state reason now).1 = true := by
  constructor
  · by_cases h : reason = "" <;> simp [update_state, add_state_event, h]
  · rfl

/-- C10: `detect_pattern` performs no range validation on `confidence`: for
every rational value, in `[0, 1]` or not, it appends exactly one entry whose
`confidence` field is the given value, and it always reaches its
`save_state()` call, so it reports success exactly when the save succeeds. -/
theorem detect_pattern_no_confidence_validation
    (doc : StateDoc α) (pattern_type : String) (description : String)
    (confidence : Rat) (now : String) :
    (detect_pattern doc pattern_type description confidence now).1 = true ∧
    (detect_pattern doc pattern_type description confidence now).2.patterns.emergent
        = doc.patterns.emergent ++
          [{ timestamp := now
             type := pattern_type
             description := description
             confidence := confidence
             recursiveDepth := doc.patterns.recursive.depth }] := by
  exact ⟨rfl, rfl⟩

/-- C6: `stateHistory` and `patterns.emergent` are append-only: each of the
five mutating operations leaves the entries present before the call as a
prefix of the entries after it. -/
theorem tracker_append_only
    (doc : StateDoc α) (event : String) (notes : String) (ec : Bool)
    (new_state : String) (reason : String) (pattern_type : String)
    (description : String) (confidence : Rat) (dimension : String)
    (key : String) (value : α) (now : String) :
    (∃ t, (add_state_event doc event notes ec now).2.stateHistory
        = doc.stateHistory ++ t) ∧
    (∃ t, (add_state_event doc event notes ec now).2.patterns.emergent
        = doc.patterns.emergent ++ t) ∧
    (∃ t, (update_state doc new_state reason now).2.stateHistory
        = doc.stateHistory ++ t) ∧
    (∃ t, (update_state doc new_state reason now).2.patterns.emergent
        = doc.patterns.emergent ++ t) ∧
    (∃ t, (detect_pattern doc pattern_type description confidence now).2.stateHistory
        = doc.stateHistory ++ t) ∧
    (∃ t, (detect_pattern doc pattern_type description confidence now).2.patterns.emergent
        = doc.patterns.emergent ++ t) ∧
    (∃ t, (increase_recursive_depth doc).2.stateHistory
        = doc.stateHistory ++ t) ∧
    (∃ t, (increase_recursive_depth doc).2.patterns.emergent
        = doc.patterns.emergent ++ t) ∧
    (∃ t, (update_dimension doc dimension key value).2.stateHistory
        = doc.stateHistory ++ t) ∧
    (∃ t, (update_dimension doc dimension key value).2.patterns.emergent
        = doc.patterns.emergent ++ t) := by
  refine ⟨⟨_, rfl⟩, ⟨[], by simp [add_state_event]⟩, ⟨_, rfl⟩,
          ⟨[], by simp [update_state, add_state_event]⟩,
          ⟨[], by simp [detect_pattern]⟩, ⟨_, rfl⟩, ?_, ?_, ?_, ?_⟩
  · exact ⟨[], by
      by_cases h : doc.patterns.recursive.depth < doc.patterns.recursive.maxDepth <;>
        simp [increase_recursive_depth, h]⟩
  · exact ⟨[], by
      by_cases h : doc.patterns.recursive.depth < doc.patterns.recursive.maxDepth <;>
        simp [increase_recursive_depth, h]⟩
  · exact ⟨[], by unfold update_dimension; split <;> simp⟩
  · exact ⟨[], by unfold update_dimension; split <;> simp⟩

/-- The in-memory document produced by one `increase_recursive_depth` call. -/
def idr_step : StateDoc α → StateDoc α :=
  fun doc => (increase_recursive_depth doc).2

lemma idr_iterate_depth (doc : StateDoc α) (M : Nat)
    (h0 : doc.patterns.recursive.depth = 0)
    (hM : doc.patterns.recursive.maxDepth = (M : Int)) :
    ∀ k : Nat, k ≤ M →
      (idr_step^[k] doc).patterns.recursive.depth = (k : Int) ∧
      (idr_step^[k] doc).patterns.recursive.maxDepth = (M : Int) := by
  intro k
  induction k with
  | zero => intro _; simpa using ⟨h0, hM⟩
  | succ n ih =>
    intro h
    have hn := ih (Nat.le_of_succ_le h)
    rw [Function.iterate_succ_apply']
    have hlt : (idr_step^[n] doc).patterns.recursive.depth <
        (idr_step^[n] doc).patterns.recursive.maxDepth := by
      rw [hn.1, hn.2]
      exact_mod_cast Nat.lt_of_succ_le h
    constructor
    · simp only [idr_step, increase_recursive_depth]
      rw [if_pos hlt]
      show (idr_step^[n] doc).patterns.recursive.depth + 1 = ((n + 1 : Nat) : Int)
      rw [hn.1]
      push_cast
      ring
    · simp only [idr_step, increase_recursive_depth]
      rw [if_pos hlt]
      show (idr_step^[n] doc).patterns.recursive.maxDepth = (M : Int)
      exact hn.2

/-- C3: `patterns.recursive.depth` never exceeds `patterns.recursive.maxDepth`
(the bound is preserved by every call), and starting from depth `0` with
`maxDepth = M`, `maxDepth + 1` successive calls succeed exactly `M` times and
fail on the final call, the failing call returning the document unchanged
(no mutation, no attempted save) with the depth left at `M`. -/
theorem recursive_depth_ceiling (doc : StateDoc α) (M : Nat)
    (h0 : doc.patterns.recursive.depth = 0)
    (hM : doc.patterns.recursive.maxDepth = (M : Int)) :
    (∀ d : StateDoc α,
        d.patterns.recursive.depth ≤ d.patterns.recursive.maxDepth →
        (increase_recursive_depth d).2.patterns.recursive.depth ≤
          (increase_recursive_depth d).2.patterns.recursive.maxDepth) ∧
    (∀ k : Nat, k < M → (increase_recursive_depth (idr_step^[k] doc)).1 = true) ∧
    ((increase_recursive_depth (idr_step^[M] doc)).1 = false) ∧
    ((increase_recursive_depth (idr_step^[M] doc)).2 = idr_step^[M] doc) ∧
    ((idr_step^[M] doc).patterns.recursive.depth = (M : Int)) := by
  have hfin := idr_iterate_depth doc M h0 hM M le_rfl
  have hnotlt : ¬ (idr_step^[M] doc).patterns.recursive.depth <
      (idr_step^[M] doc).patterns.recursive.maxDepth := by
    rw [hfin.1, hfin.2]; exact lt_irrefl _
  refine ⟨?_, ?_, ?_, ?_, hfin.1⟩
  · intro d hd
    by_cases h : d.patterns.recursive.depth < d.patterns.recursive.maxDepth
    · simp [increase_recursive_depth, h]
      omega
    · simp [increase_recursive_depth, h]
      exact hd
  · intro k hk
    have hkd := idr_iterate_depth doc M h0 hM k (Nat.le_of_lt hk)
    have hlt : (idr_step^[k] doc).patterns.recursive.depth <
        (idr_step^[k] doc).patterns.recursive.maxDepth := by
      rw [hkd.1, hkd.2]; exact_mod_cast hk
    simp [increase_recursive_depth, hlt]
  · simp [increase_recursive_depth, hnotlt]
  · simp [increase_recursive_depth, hnotlt]

/-- C3 witness: on the default document (`depth = 0`, `maxDepth = 5`) the
sixth call fails with the depth left at `5`, while earlier calls succeed. -/
theorem recursive_depth_ceiling_check :
    ((increase_recursive_depth
        (idr_step^[5] (create_initial_state ("t") : StateDoc Int))).1 = false) ∧
    ((increase_recursive_depth
        (idr_step^[2] (create_initial_state ("t") : StateDoc Int))).1 = true) ∧
    ((idr_step^[5] (create_initial_state ("t") : StateDoc Int)).patterns.recursive.depth
        = 5) :=
  ⟨(recursive_depth_ceiling (create_initial_state ("t")) 5 rfl rfl).2.2.1,
   (recursive_depth_ceiling (create_initial_state ("t")) 5 rfl rfl).2.1 2 (by omega),
   (recursive_depth_ceiling (create_initial_state ("t")) 5 rfl rfl).2.2.2.2⟩

lemma dict_get_eq_none_iff (l : List (String × α)) (k : String) :
    dict_get l k = none ↔ k ∉ l.map Prod.fst := by
  induction l with
  | nil => simp [dict_get]
  | cons p ps ih =>
    by_cases h : p.1 = k
    · subst h
      simp [dict_get]
    · simp [dict_get, h, ih, Ne.symm h]

lemma dict_get_modify_self (l : List (String × α)) (k : String) (f : α → α) :
    dict_get (dict_modify l k f) k = (dict_get l k).map f := by
  induction l with
  | nil => simp [dict_get, dict_modify]
  | cons p ps ih =>
    by_cases h : p.1 = k
    · subst h
      simp [dict_get, dict_modify]
    · simp [dict_get, dict_modify, h, ih]

lemma dict_get_modify_other (l : List (String × α)) (k k' : String)
    (f : α → α) (h : k' ≠ k) :
    dict_get (dict_modify l k f) k' = dict_get l k' := by
  induction l with
  | nil => simp [dict_modify]
  | cons p ps ih =>
    by_cases hp : p.1 = k
    · subst hp
      simp [dict_modify, dict_get, Ne.symm h]
    · by_cases hp' : p.1 = k'
      · subst hp'
        simp [dict_modify, dict_get, hp]
      · simp [dict_modify, dict_get, hp, hp', ih]

lemma dict_get_set_self (l : List (String × α)) (k : String) (v : α) :
    dict_get (dict_set l k v) k = some v := by
  induction l with
  | nil => simp [dict_get, dict_set]
  | cons p ps ih =>
    by_cases h : p.1 = k
    · subst h
      simp [dict_get, dict_set]
    · simp [dict_get, dict_set, h, ih]

lemma dict_get_set_other (l : List (String × α)) (k k' : String) (v : α)
    (h : k' ≠ k) :
    dict_get (dict_set l k v) k' = dict_get l k' := by
  induction l with
  | nil => simp [dict_get, dict_set, Ne.symm h]
  | cons p ps ih =>
    by_cases hp : p.1 = k
    · subst hp
      simp [dict_set, dict_get, Ne.symm h]
    · by_cases hp' : p.1 = k'
      · subst hp'
        simp [dict_set, dict_get, hp]
      · simp [dict_set, dict_get, hp, hp', ih]

/-- C4: on a document whose `dimensions` keys are the five predeclared names,
`update_dimension` with any other name returns `False` with the document
untouched and no save attempted; with one of the five names it reaches its
save, leaves every other dimension's dict unchanged, and upserts the key in
the named dimension's dict (the key now maps to the value, all other keys
unchanged). -/
theorem update_dimension_validates_name (doc : StateDoc α)
    (dimension : String) (key : String) (value : α)
    (hkeys : doc.dimensions.map Prod.fst = dimension_names) :
    (dimension ∉ dimension_names →
       update_dimension doc dimension key value = (false, doc)) ∧
    (dimension ∈ dimension_names →
       (update_dimension doc dimension key value).1 = true ∧
       (∀ d, d ≠ dimension →
          dict_get (update_dimension doc dimension key value).2.dimensions d
            = dict_get doc.dimensions d) ∧
       (∃ m m', dict_get doc.dimensions dimension = some m ∧
          dict_get (update_dimension doc dimension key value).2.dimensions dimension
            = some m' ∧
          dict_get m' key = some value ∧
          (∀ k', k' ≠ key → dict_get m' k' = dict_get m k'))) := by
  constructor
  · intro hnot
    have hnone : dict_get doc.dimensions dimension = none := by
      rw [dict_get_eq_none_iff, hkeys]
      exact hnot
    simp [update_dimension, hnone]
  · intro hmem
    have hsome : dict_get doc.dimensions dimension ≠ none := by
      intro hnone
      have hd : dimension ∈ doc.dimensions.map Prod.fst := by
        rw [hkeys]
        exact hmem
      exact (dict_get_eq_none_iff _ _).1 hnone hd
    rcases Option.ne_none_iff_exists'.1 hsome with ⟨m, hm⟩
    refine ⟨by simp [update_dimension, hm], ?_, ?_⟩
    · intro d hd
      simp only [update_dimension, hm]
      exact dict_get_modify_other _ _ _ _ hd
    · refine ⟨m, dict_set m key value, hm, ?_, dict_get_set_self _ _ _, ?_⟩
      · simp only [update_dimension, hm]
        rw [dict_get_modify_self, hm]
        rfl
      · intro k' hk'
        exact dict_get_set_other _ _ _ _ hk'

/-- C4 witness: on the default document, `"nonexistent"` is rejected with the
document unchanged, while `"temporal"` reaches the save. -/
theorem update_dimension_validates_name_check :
    (update_dimension (create_initial_state ("t") : StateDoc Int)
        ("nonexistent") ("k") 1 = (false, create_initial_state ("t"))) ∧
    ((update_dimension (create_initial_state ("t") : StateDoc Int)
        ("temporal") ("k") 1).1 = true) :=
  ⟨(update_dimension_validates_name (create_initial_state ("t")) ("nonexistent")
      ("k") 1 (by decide)).1 (by decide),
   ((update_dimension_validates_name (create_initial_state ("t")) ("temporal")
      ("k") 1 (by decide)).2 (by decide)).1⟩

/-- C5: with no file on disk, `load_state` materialises the default document
(state `"initialized"`, empty history and emergent patterns, all five
dimensions present and empty) without writing; saving it and loading again
returns the very same document. -/
theorem default_doc_roundtrip (now : String) (now2 : String) :
    (load_state (DiskFile.missing : DiskFile α) now
        = (true, some (create_initial_state now), DiskFile.missing)) ∧
    (save_state (create_initial_state now : StateDoc α) DiskFile.missing true
        = (true, DiskFile.valid (create_initial_state now))) ∧
    (load_state (DiskFile.valid (create_initial_state now : StateDoc α)) now2
        = (true, some (create_initial_state now),
           DiskFile.valid (create_initial_state now))) ∧
    ((create_initial_state now : StateDoc α).currentState.state = "initialized") ∧
    ((create_initial_state now : StateDoc α).stateHistory = []) ∧
    ((create_initial_state now : StateDoc α).patterns.emergent = []) ∧
    ((create_initial_state now : StateDoc α).dimensions.map Prod.fst
        = dimension_names) ∧
    (dict_get (create_initial_state now : StateDoc α).dimensions ("temporal")
        = some []) ∧
    (dict_get (create_initial_state now : StateDoc α).dimensions ("spatial")
        = some []) ∧
    (dict_get (create_initial_state now : StateDoc α).dimensions ("conceptual")
        = some []) ∧
    (dict_get (create_initial_state now : StateDoc α).dimensions ("relational")
        = some []) ∧
    (dict_get (create_initial_state now : StateDoc α).dimensions ("ethical")
        = some []) := by
  refine ⟨rfl, rfl, rfl, rfl, rfl, rfl, rfl, ?_, ?_, ?_, ?_, ?_⟩ <;>
    simp [create_initial_state, dict_get]

/-- C7: a present-but-unreadable state file makes `load_state` report failure
with no in-memory document and the file left as it is; a readable file is
returned as is; only a missing file triggers default-initialisation, and even
then nothing is written to disk. -/
theorem load_state_malformed_fails (now : String) :
    (load_state (DiskFile.malformed : DiskFile α) now
        = (false, none, DiskFile.malformed)) ∧
    (∀ doc : StateDoc α,
        load_state (DiskFile.valid doc) now = (true, some doc, DiskFile.valid doc)) ∧
    (load_state (DiskFile.missing : DiskFile α) now
        = (true, some (create_initial_state now), DiskFile.missing)) :=
  ⟨rfl, fun _ => rfl, rfl⟩

/-- One parsed commit record: hash, author, email, epoch timestamp, subject. -/
structure Commit where
  hash : String
  author : String
  email : String
  timestamp : Int
  message : String
deriving DecidableEq, Repr

/-- One pattern record emitted by the Pattern Analyzer. -/
structure Pattern where
  type : String
  description : String
  depth : Nat
  confidence : Rat
deriving DecidableEq, Repr

/-- The repository as seen through the version-control query surface: the
parsed commit list (`git log --all`), the tracked files (`git ls-files`), the
Markdown-filtered tracked files (`git ls-files *.md`), and whether each
genesis framework file opens readably. -/
structure Repo where
  commits : List Commit
  files : List String
  mdFiles : List String
  genesisJsonReadable : Bool
  genesisMdReadable : Bool
deriving DecidableEq, Repr

/-- Python `defaultdict(int)` increment `d[k] += 1`, preserving insertion order. -/
def dict_incr (l : List (String × Nat)) (k : String) : List (String × Nat) :=
  match l with
  | [] => [(k, 1)]
  | p :: ps => if p.1 = k then (p.1, p.2 + 1) :: ps else p :: dict_incr ps k

/-- Accumulator pass behind `py_split_words`: split a character list on
whitespace runs, dropping empty words. -/
def py_words_aux (acc : List Char) : List Char → List String
  | [] => if acc = [] then [] else [String.mk acc.reverse]
  | c :: cs =>
    if c.isWhitespace then
      if acc = [] then py_words_aux [] cs
      else String.mk acc.reverse :: py_words_aux [] cs
    else py_words_aux (c :: acc) cs

/-- Python `message.lower().split()`: case-fold, split on whitespace runs, drop
empties.  Strings are processed as their code-point lists (the messages in
play are ASCII, where `Char.toLower` agrees with Python `str.lower`). -/
def py_split_words (s : String) : List String :=
  py_words_aux [] (s.data.map Char.toLower)

/-- Python `str.split(sep)` for a one-character separator, keeping empty
pieces, at the code-point level. -/
def split_on_char (sep : Char) : List Char → List (List Char)
  | [] => [[]]
  | c :: cs =>
    match split_on_char sep cs with
    | [] => []
    | w :: ws => if c = sep then [] :: w :: ws else (c :: w) :: ws

/-- Python `file.split(sep)` as a list of strings. -/
def py_split_on (s : String) (sep : Char) : List String :=
  (split_on_char sep s.data).map String.mk

/-- The keyword counter of `analyze_commit_patterns`: every word longer than
3 characters across all commit messages, counted in first-seen order. -/
def commit_message_keywords (commits : List Commit) : List (String × Nat) :=
  commits.foldl
    (fun acc c =>
      (py_split_words c.message).foldl
        (fun acc2 w => if w.length > 3 then dict_incr acc2 w else acc2) acc)
    []

/-- Stable insertion step for sorting by count, descending (an element is
placed before the first element whose count it reaches, so earlier-counted
keys stay first among ties, like Python's stable `sorted`). -/
def insert_by_count (x : String × Nat) : List (String × Nat) → List (String × Nat)
  | [] => [x]
  | y :: ys => if x.2 ≥ y.2 then x :: y :: ys else y :: insert_by_count x ys

/-- Python `sorted(message_keywords.items(), key=lambda x: x[1], reverse=True)`:
a stable sort, descending by count. -/
def sort_by_count : List (String × Nat) → List (String × Nat)
  | [] => []
  | x :: xs => insert_by_count x (sort_by_count xs)

/-- The `[:5]` slice of the sorted keyword counts. -/
def top_keywords (commits : List Commit) : List (String × Nat) :=
  (sort_by_count (commit_message_keywords commits)).take 5

/-- The patterns a single depth level of `analyze_commit_patterns` appends
before recursing: commit frequency, author diversity, message keywords. -/
def commit_level_patterns (commits : List Commit) (depth : Nat) : List Pattern :=
  (if commits.length > 1 then
     [{ type := "commit_frequency"
        description := "Repository has " ++ toString commits.length ++ " commits"
        depth := depth
        confidence := 1 }]
   else []) ++
  (if ((commits.map Commit.author).eraseDups).length > 0 then
     [{ type := "author_diversity"
        description :=
          toString ((commits.map Commit.author).eraseDups).length ++
            " unique author(s) detected"
        depth := depth
        confidence := 1 }]
   else []) ++
  (if commit_message_keywords commits ≠ [] then
     [{ type := "message_patterns"
        description :=
          "Top keywords: " ++
            String.intercalate (", ") ((top_keywords commits).map Prod.fst)
        depth := depth
        confidence := Rat.divInt 4 5 }]
   else [])

/-- Embedding of `PatternAnalyzer.analyze_commit_patterns` on a repository whose history
query succeeds: nothing at or beyond `max_depth`, otherwise the current
level's patterns followed by the next level's. -/
def analyze_commit_patterns (repo : Repo) (max_depth : Nat) (depth : Nat) :
    List Pattern :=
  if depth ≥ max_depth then []
  else
    commit_level_patterns repo.commits depth ++
      (if depth < max_depth - 1 then
         analyze_commit_patterns repo max_depth (depth + 1)
       else [])
termination_by max_depth - depth
decreasing_by omega

/-- The file-extension histogram: `file.split('.')[-1]` counted per tracked
file containing a dot, in insertion order. -/
def file_extension_counts (files : List String) : List (String × Nat) :=
  files.foldl
    (fun acc f =>
      if f.data.contains '.' then dict_incr acc ((py_split_on f '.').getLastD (""))
      else acc)
    []

/-- A single-quote character, for the Python `str(dict)` rendering. -/
def squote : String := String.singleton (Char.ofNat 39)

/-- The Python `str(dict)` rendering used in the file-types description. -/
def py_dict_repr (l : List (String × Nat)) : String :=
  "\x7b" ++
    String.intercalate (", ")
      (l.map (fun p => squote ++ p.1 ++ squote ++ ": " ++ toString p.2)) ++
    "\x7d"

/-- Python `file.rsplit('/', 1)[0]` for each file containing a slash, deduplicated
(the Python code builds a `set`; only its size is used). -/
def directory_list (files : List String) : List String :=
  ((files.filter (fun f => f.data.contains '/')).map
      (fun f => String.intercalate ("/") ((py_split_on f '/').dropLast))).eraseDups

/-- Embedding of `PatternAnalyzer.analyze_file_patterns`: a single pass tagged with the
depth that was passed in; the depth guard is the only use of `max_depth`. -/
def analyze_file_patterns (repo : Repo) (max_depth : Nat) (depth : Nat) :
    List Pattern :=
  if depth ≥ max_depth then []
  else
    (if file_extension_counts repo.files ≠ [] then
       [{ type := "file_types"
          description := "File types: " ++ py_dict_repr (file_extension_counts repo.files)
          depth := depth
          confidence := 1 }]
     else []) ++
    (if directory_list repo.files ≠ [] then
       [{ type := "directory_structure"
          description :=
            toString (directory_list repo.files).length ++ " directories detected"
          depth := depth
          confidence := 1 }]
     else [])

/-- Embedding of `PatternAnalyzer.analyze_ethical_patterns`: a Markdown-documentation
check plus one pattern per genesis framework file that opens readably; the
depth field is hard-coded to 0. -/
def analyze_ethical_patterns (repo : Repo) : List Pattern :=
  (if repo.mdFiles ≠ [] then
     [{ type := "ethical_documentation"
        description := "Documentation files present: " ++ toString repo.mdFiles.length
        depth := 0
        confidence := Rat.divInt 9 10 }]
   else []) ++
  (if repo.genesisJsonReadable then
     [{ type := "ethical_framework"
        description := "Genesis framework file found: genesis.json"
        depth := 0
        confidence := 1 }]
   else []) ++
  (if repo.genesisMdReadable then
     [{ type := "ethical_framework"
        description := "Genesis framework file found: GENESIS.md"
        depth := 0
        confidence := 1 }]
   else [])

/-- Embedding of `PatternAnalyzer.analyze_all`: concatenate the three families, commit
then file then ethical, the first two from depth 0. -/
def analyze_all (repo : Repo) (max_depth : Nat) : List Pattern :=
  analyze_commit_patterns repo max_depth 0 ++
    analyze_file_patterns repo max_depth 0 ++
      analyze_ethical_patterns repo

/-- The testable-properties scenario: 4 commits by 2 distinct authors with
the messages given in the spec. -/
def scenario_commits : List Commit :=
  [{ hash := "h1", author := "alice", email := "alice@example.org",
     timestamp := 1, message := "fix bug now" },
   { hash := "h2", author := "bob", email := "bob@example.org",
     timestamp := 2, message := "add feature now" },
   { hash := "h3", author := "alice", email := "alice@example.org",
     timestamp := 3, message := "now refine logic" },
   { hash := "h4", author := "bob", email := "bob@example.org",
     timestamp := 4, message := "now cleanup" }]

/-- The scenario repository around those commits. -/
def scenario_repo : Repo :=
  { commits := scenario_commits
    files := ["README.md", "src/main.py"]
    mdFiles := ["README.md"]
    genesisJsonReadable := false
    genesisMdReadable := false }

/-- The three observations one level of commit analysis of the scenario
repository emits. -/
def scenario_level (d : Nat) : List Pattern :=
  [{ type := "commit_frequency"
     description := "Repository has 4 commits"
     depth := d
     confidence := 1 },
   { type := "author_diversity"
     description := "2 unique author(s) detected"
     depth := d
     confidence := 1 },
   { type := "message_patterns"
     description := "Top keywords: feature, refine, logic, cleanup"
     depth := d
     confidence := Rat.divInt 4 5 }]

lemma scenario_level_eval0 :
    commit_level_patterns scenario_commits 0 = scenario_level 0 := by
  decide

lemma scenario_level_eval1 :
    commit_level_patterns scenario_commits 1 = scenario_level 1 := by
  decide

lemma scenario_commit_eval :
    analyze_commit_patterns scenario_repo 2 0 = scenario_level 0 ++ scenario_level 1 := by
  rw [analyze_commit_patterns, analyze_commit_patterns]
  norm_num
  rw [show scenario_repo.commits = scenario_commits from rfl]
  rw [scenario_level_eval0, scenario_level_eval1]

/-- C8 (amended): for the scenario repository (4 commits by 2 distinct
authors, messages "fix bug now", "add feature now", "now refine logic",
"now cleanup") and `max_depth = 2`, commit analysis emits at depth 0 a
frequency observation "Repository has 4 commits", an author-diversity
observation "2 unique author(s) detected", and a keyword observation whose
top keywords are "feature, refine, logic, cleanup" (the word "now" is only 3
characters long, so the longer-than-3 keyword filter excludes it); the same
three observations re-emit tagged depth 1, appended after the depth-0
observations. -/
theorem scenario_commit_analysis :
    analyze_commit_patterns scenario_repo 2 0 =
      [{ type := "commit_frequency", description := "Repository has 4 commits",
         depth := 0, confidence := 1 },
       { type := "author_diversity", description := "2 unique author(s) detected",
         depth := 0, confidence := 1 },
       { type := "message_patterns",
         description := "Top keywords: feature, refine, logic, cleanup",
         depth := 0, confidence := Rat.divInt 4 5 },
       { type := "commit_frequency", description := "Repository has 4 commits",
         depth := 1, confidence := 1 },
       { type := "author_diversity", description := "2 unique author(s) detected",
         depth := 1, confidence := 1 },
       { type := "message_patterns",
         description := "Top keywords: feature, refine, logic, cleanup",
         depth := 1, confidence := Rat.divInt 4 5 }] := by
  rw [scenario_commit_eval]
  rfl

/-- C8 counterexample: in the scenario the keyword observation's top keyword
is "feature", not "now"; no emitted description mentions "now". -/
theorem scenario_top_keyword_not_now :
    (((top_keywords scenario_commits).map Prod.fst).head? = some ("feature")) ∧
    ((analyze_commit_patterns scenario_repo 2 0).map Pattern.description =
      ["Repository has 4 commits", "2 unique author(s) detected",
       "Top keywords: feature, refine, logic, cleanup",
       "Repository has 4 commits", "2 unique author(s) detected",
       "Top keywords: feature, refine, logic, cleanup"]) ∧
    (("feature" : String) ≠ "now") := by
  refine ⟨by decide, ?_, by decide⟩
  rw [scenario_commit_eval]
  rfl

lemma mem_ite_singleton {β : Type} {c : Prop} [inst : Decidable c] {x p : β}
    (h : p ∈ (if c then [x] else ([] : List β))) : p = x := by
  split at h <;> simp_all

lemma commit_level_patterns_depth (commits : List Commit) (d : Nat)
    (p : Pattern) (hp : p ∈ commit_level_patterns commits d) : p.depth = d := by
  simp only [commit_level_patterns, List.mem_append] at hp
  rcases hp with (h | h) | h <;> rw [mem_ite_singleton h]

lemma analyze_commit_patterns_depth_lt (repo : Repo) (max_depth : Nat) :
    ∀ fuel depth p, max_depth - depth ≤ fuel →
      p ∈ analyze_commit_patterns repo max_depth depth → p.depth < max_depth := by
  intro fuel
  induction fuel with
  | zero =>
    intro depth p hf hp
    rw [analyze_commit_patterns] at hp
    rw [if_pos (by omega : depth ≥ max_depth)] at hp
    simp at hp
  | succ n ih =>
    intro depth p hf hp
    rw [analyze_commit_patterns] at hp
    by_cases hd : depth ≥ max_depth
    · rw [if_pos hd] at hp
      simp at hp
    · rw [if_neg hd] at hp
      rcases List.mem_append.1 hp with h | h
      · have hdep := commit_level_patterns_depth _ _ _ h
        omega
      · by_cases hlt : depth < max_depth - 1
        · rw [if_pos hlt] at h
          exact ih (depth + 1) p (by omega) h
        · rw [if_neg hlt] at h
          simp at h

/-- C2: every commit-family record of `analyze_all` has depth strictly below
`max_depth`; every file-family record's depth equals the depth that was
requested and stays within `max_depth`; every ethical-family record's depth
is the hard-coded 0, never exceeding `max_depth`; hence every record of
`analyze_all` has depth at most `max_depth`. -/
theorem analyzer_depth_bounded (repo : Repo) (max_depth : Nat) :
    (∀ p ∈ analyze_commit_patterns repo max_depth 0, p.depth < max_depth) ∧
    (∀ d, ∀ p ∈ analyze_file_patterns repo max_depth d,
        p.depth = d ∧ p.depth ≤ max_depth) ∧
    (∀ p ∈ analyze_ethical_patterns repo, p.depth = 0 ∧ p.depth ≤ max_depth) ∧
    (∀ p ∈ analyze_all repo max_depth, p.depth ≤ max_depth) := by
  have hcommit : ∀ p ∈ analyze_commit_patterns repo max_depth 0,
      p.depth < max_depth :=
    fun p hp =>
      analyze_commit_patterns_depth_lt repo max_depth max_depth 0 p (by omega) hp
  have hfile : ∀ d, ∀ p ∈ analyze_file_patterns repo max_depth d,
      p.depth = d ∧ p.depth ≤ max_depth := by
    intro d p hp
    unfold analyze_file_patterns at hp
    by_cases hd : d ≥ max_depth
    · rw [if_pos hd] at hp
      simp at hp
    · rw [if_neg hd] at hp
      rcases List.mem_append.1 hp with h | h <;>
        (rw [mem_ite_singleton h]; refine ⟨rfl, ?_⟩; show d ≤ max_depth; omega)
  have heth : ∀ p ∈ analyze_ethical_patterns repo,
      p.depth = 0 ∧ p.depth ≤ max_depth := by
    intro p hp
    simp only [analyze_ethical_patterns, List.mem_append] at hp
    rcases hp with (h | h) | h <;>
      (rw [mem_ite_singleton h]; exact ⟨rfl, Nat.zero_le _⟩)
  refine ⟨hcommit, hfile, heth, ?_⟩
  intro p hp
  unfold analyze_all at hp
  rcases List.mem_append.1 hp with h | h
  · rcases List.mem_append.1 h with h1 | h1
    · exact Nat.le_of_lt (hcommit p h1)
    · exact (hfile 0 p h1).2
  · exact (heth p h).2

/-- C2 witness: a concrete record of `analyze_all` on the scenario repository
with `max_depth = 2`, and its depth bound obtained from the theorem. -/
theorem analyzer_depth_bounded_check :
    (({ type := "commit_frequency", description := "Repository has 4 commits",
        depth := 0, confidence := 1 } : Pattern) ∈ analyze_all scenario_repo 2) ∧
    (({ type := "commit_frequency", description := "Repository has 4 commits",
        depth := 0, confidence := 1 } : Pattern).depth ≤ 2) := by
  have hmem : ({ type := "commit_frequency",
                 description := "Repository has 4 commits",
                 depth := 0, confidence := 1 } : Pattern) ∈ analyze_all scenario_repo 2 := by
    unfold analyze_all
    refine List.mem_append.2 (Or.inl ?_)
    rw [scenario_commit_eval]
    decide
  exact ⟨hmem, (analyzer_depth_bounded scenario_repo 2).2.2.2 _ hmem⟩
